/-
Verification of the zoologix React client (ws-assignment-2).

Shallow embedding of the pure logic of the components:
 * Pagination (Components/Pagination.jsx): the numbered-button window and
   the Previous/Next affordances.
 * Habitats/Species list views: URL query-state encoding (updateURL) and
   decoding (the location.search effect), and the search-submit gate.
 * DeleteResource.fetchIds / CreateResource.fetchAllIds: the paged drain loop.
 * CreateResource.handleSubmit: duplicate-key error mapping.
 * FetchWrapper.sendRequest: HTTP error normalization.

JS numbers that hold integer values are modelled as Int (or Nat where the
source can only produce naturals); query parameters are strings, and the
URLSearchParams object is modelled as an ordered association list of
key/value string pairs (its serialize/parse pair is a browser primitive,
treated as the identity on that list).
-/
import Mathlib

namespace Zoologix

/-! ## Pagination (src Components/Pagination.jsx)

The component computes
  startPage = max(1, page - floor(visiblePages / 2))
  endPage   = startPage + visiblePages - 1
  if endPage > totalPages then endPage = totalPages;
     startPage = max(1, endPage - visiblePages + 1)
then renders one numbered button per i in startPage..endPage, a Previous
button when page > 1 and a Next button when page < totalPages. -/

/-- The run of consecutive integers a, a+1, ..., a+n-1 — the values taken by
the loop variable of `for (let i = startPage; i <= endPage; i++)`. -/
def intRun (a : Int) : Nat → List Int
  | 0 => []
  | n + 1 => a :: intRun (a + 1) n

/-- The (startPage, endPage) pair computed by Pagination.jsx:
  startPage = max(1, page - Math.floor(visiblePages / 2))
  endPage   = startPage + visiblePages - 1
  if (endPage > totalPages) then endPage = totalPages and
    startPage = max(1, endPage - visiblePages + 1).
`visiblePages / 2` is Int floor division, which agrees with
Math.floor(visiblePages / 2) on the nonnegative counts the component uses. -/
def paginationBounds (page totalPages visiblePages : Int) : Int × Int :=
  let startPage := max 1 (page - visiblePages / 2)
  let endPage := startPage + visiblePages - 1
  if endPage > totalPages then
    (max 1 (totalPages - visiblePages + 1), totalPages)
  else
    (startPage, endPage)

/-- The numbered-button window of the Pagination component: the values taken
by i in `for (let i = startPage; i <= endPage; i++)`. -/
def paginationWindow (page totalPages visiblePages : Int) : List Int :=
  intRun (paginationBounds page totalPages visiblePages).1
    ((paginationBounds page totalPages visiblePages).2 + 1 -
      (paginationBounds page totalPages visiblePages).1).toNat

/-- One rendered item of the pagination list. -/
inductive PageItem : Type
  | previous : PageItem
  | numbered (n : Int) (active : Bool) : PageItem
  | next : PageItem
deriving DecidableEq

/-- The full item list the component renders: optional Previous, the
numbered window (a button is active exactly when page === i), and an
optional Next. -/
def paginationItems (page totalPages visiblePages : Int) : List PageItem :=
  (if page > 1 then [PageItem.previous] else []) ++
  (paginationWindow page totalPages visiblePages).map
    (fun i => PageItem.numbered i (page = i : Bool)) ++
  (if page < totalPages then [PageItem.next] else [])

/-! Basic facts about `intRun`. -/

theorem intRun_succ (a : Int) (n : Nat) : intRun a (n + 1) = a :: intRun (a + 1) n := by
  rw [intRun]

theorem intRun_length (a : Int) (n : Nat) : (intRun a n).length = n := by
  induction n generalizing a with
  | zero => rfl
  | succ n ih => simp [intRun, ih]

theorem mem_intRun (a x : Int) (n : Nat) :
    x ∈ intRun a n ↔ a ≤ x ∧ x < a + n := by
  induction n generalizing a with
  | zero => simp [intRun]
  | succ n ih =>
    simp only [intRun, List.mem_cons, ih]
    constructor
    · rintro (rfl | ⟨h1, h2⟩) <;> constructor <;> omega
    · rintro ⟨h1, h2⟩
      rcases eq_or_lt_of_le h1 with rfl | h1
      · exact Or.inl rfl
      · exact Or.inr ⟨by omega, by omega⟩

theorem intRun_nodup (a : Int) (n : Nat) : (intRun a n).Nodup := by
  induction n generalizing a with
  | zero => simp [intRun]
  | succ n ih =>
    simp only [intRun, List.nodup_cons]
    refine ⟨?_, ih (a + 1)⟩
    rw [mem_intRun]
    omega

theorem intRun_chain (a : Int) (n : Nat) :
    List.Chain' (fun x y => y = x + 1) (intRun a n) := by
  induction n generalizing a with
  | zero => simp [intRun]
  | succ n ih =>
    cases n with
    | zero => simp [intRun]
    | succ m =>
      refine List.Chain'.cons rfl ?_
      exact ih (a + 1)

theorem intRun_getLast? (a : Int) (n : Nat) (h : n ≠ 0) :
    (intRun a n).getLast? = some (a + n - 1) := by
  induction n generalizing a with
  | zero => omega
  | succ n ih =>
    cases n with
    | zero => simp [intRun]
    | succ m =>
      rw [intRun_succ, intRun_succ, List.getLast?_cons_cons, ← intRun_succ,
        ih (a + 1) (by omega)]
      congr 1
      push_cast
      ring

/-- Arithmetic characterisation of the bounds on valid inputs:
the window spans exactly `visiblePages` values, brackets `page`, starts at 1
or later, and ends at `totalPages` or earlier. -/
theorem paginationBounds_spec (page totalPages visiblePages : Int)
    (hp1 : 1 ≤ page) (hpt : page ≤ totalPages)
    (hv1 : 1 ≤ visiblePages) (hvt : visiblePages ≤ totalPages) :
    (paginationBounds page totalPages visiblePages).2 + 1 -
      (paginationBounds page totalPages visiblePages).1 = visiblePages ∧
    (paginationBounds page totalPages visiblePages).1 ≤ page ∧
    page ≤ (paginationBounds page totalPages visiblePages).2 ∧
    1 ≤ (paginationBounds page totalPages visiblePages).1 ∧
    (paginationBounds page totalPages visiblePages).2 ≤ totalPages := by
  simp only [paginationBounds]
  split_ifs with h <;> simp only <;> omega

/-- The window's upper end never exceeds totalPages, with no hypotheses. -/
theorem paginationBounds_snd_le (page totalPages visiblePages : Int) :
    (paginationBounds page totalPages visiblePages).2 ≤ totalPages := by
  simp only [paginationBounds]
  split_ifs with h <;> simp only <;> omega

/-- C1 counterexample: with page = 11, totalPages = 10, visibleCount = 5 the
precondition visibleCount ≤ totalPages stated by the claim holds, yet the
rendered window (6..10) does not contain page, so the claim as universally
stated is false. -/
theorem pagination_window_missing_page :
    (5 : Int) ≤ 10 ∧ (11 : Int) ∉ paginationWindow 11 10 5 := by decide

/-- C1 (amended: additionally require 1 ≤ page ≤ totalPages and
1 ≤ visibleCount): the numbered-button window has exactly visibleCount
entries, is a contiguous run of consecutive integers, contains page exactly
once, and a numbered button is marked current exactly when its number is
page. -/
theorem pagination_window_centered (page totalPages visiblePages : Int)
    (hp1 : 1 ≤ page) (hpt : page ≤ totalPages)
    (hv1 : 1 ≤ visiblePages) (hvt : visiblePages ≤ totalPages) :
    (paginationWindow page totalPages visiblePages).length = visiblePages.toNat ∧
    List.Chain' (fun x y => y = x + 1) (paginationWindow page totalPages visiblePages) ∧
    page ∈ paginationWindow page totalPages visiblePages ∧
    (paginationWindow page totalPages visiblePages).count page = 1 ∧
    (∀ i a, PageItem.numbered i a ∈ paginationItems page totalPages visiblePages →
      (a = true ↔ i = page)) := by
  obtain ⟨hspan, hs, he, h1, ht⟩ :=
    paginationBounds_spec page totalPages visiblePages hp1 hpt hv1 hvt
  have hmem : page ∈ paginationWindow page totalPages visiblePages := by
    rw [paginationWindow, mem_intRun]
    omega
  refine ⟨?_, ?_, hmem, ?_, ?_⟩
  · rw [paginationWindow, intRun_length]
    omega
  · rw [paginationWindow]
    exact intRun_chain _ _
  · exact List.count_eq_one_of_mem (by rw [paginationWindow]; exact intRun_nodup _ _) hmem
  · intro i a hin
    simp only [paginationItems, List.mem_append, List.mem_map] at hin
    rcases hin with (hin | ⟨x, _, hx⟩) | hin
    · split_ifs at hin <;> simp at hin
    · obtain ⟨rfl, rfl⟩ : x = i ∧ (decide (page = x)) = a := by
        exact ⟨(PageItem.numbered.injEq ..).mp hx |>.1, (PageItem.numbered.injEq ..).mp hx |>.2⟩
      simp [eq_comm]
    · split_ifs at hin <;> simp at hin

/-- Witness for pagination_window_centered at page 3, totalPages 10,
visibleCount 5. -/
theorem pagination_window_centered_witness :
    (paginationWindow 3 10 5).length = (5 : Int).toNat ∧
    List.Chain' (fun x y => y = x + 1) (paginationWindow 3 10 5) ∧
    (3 : Int) ∈ paginationWindow 3 10 5 ∧
    (paginationWindow 3 10 5).count 3 = 1 ∧
    (∀ i a, PageItem.numbered i a ∈ paginationItems 3 10 5 → (a = true ↔ i = 3)) :=
  pagination_window_centered 3 10 5 (by decide) (by decide) (by decide) (by decide)

/-- C3: every numbered button the Pagination component emits is at most
totalPages, and at page = 9, totalPages = 10, visibleCount = 5 the window's
last entry is exactly totalPages = 10. -/
theorem pagination_window_clamped (page totalPages visiblePages : Int)
    (hp : 1 ≤ page) (ht : 1 ≤ totalPages) (hv : 1 ≤ visiblePages) :
    (∀ i ∈ paginationWindow page totalPages visiblePages, i ≤ totalPages) ∧
    (paginationWindow 9 10 5).getLast? = some 10 := by
  refine ⟨?_, by decide⟩
  intro i hi
  rw [paginationWindow, mem_intRun] at hi
  have := paginationBounds_snd_le page totalPages visiblePages
  omega

/-- Witness for pagination_window_clamped at page 9, totalPages 10,
visibleCount 5. -/
theorem pagination_window_clamped_witness :
    (∀ i ∈ paginationWindow 9 10 5, i ≤ 10) ∧
    (paginationWindow 9 10 5).getLast? = some 10 :=
  pagination_window_clamped 9 10 5 (by decide) (by decide) (by decide)

/-- C4: the Previous affordance is rendered iff page > 1, the Next
affordance iff page < totalPages, and for totalPages = 1 with page = 1 the
whole rendered list is the single current button [1]. -/
theorem pagination_prev_next (page totalPages visiblePages : Int) :
    (PageItem.previous ∈ paginationItems page totalPages visiblePages ↔ 1 < page) ∧
    (PageItem.next ∈ paginationItems page totalPages visiblePages ↔ page < totalPages) ∧
    paginationItems 1 1 5 = [PageItem.numbered 1 true] := by
  refine ⟨?_, ?_, by decide⟩ <;>
    by_cases h1 : (1 : Int) < page <;> by_cases h2 : page < totalPages <;>
      simp [paginationItems, h1, h2]

/-! ## URL query state (Habitats.jsx decode effect / updateURL, Species.jsx)

The URLSearchParams object is modelled as an ordered association list of
key/value string pairs; its serialize/parse pair is a browser primitive and
is treated as the identity on that list.  JS numbers are modelled as Int;
the string conversions used by the component — Number-to-String coercion in
params.set, and parseInt on the way back — are modelled character by
character below. -/

/-- ASCII whitespace recognised by the JS \s class / parseInt / trim
(the model restricts the Unicode classes to ASCII). -/
def isWsChar (c : Char) : Bool :=
  c = ' ' || c = Char.ofNat 9 || c = Char.ofNat 10 || c = Char.ofNat 11 ||
    c = Char.ofNat 12 || c = Char.ofNat 13

/-- JS String.prototype.trim: strip leading and trailing whitespace. -/
def jsTrim (s : String) : String :=
  String.mk (((s.data.dropWhile isWsChar).reverse.dropWhile isWsChar).reverse)

/-- The maximal run of decimal digits at the front of the input — what JS
parseInt consumes after the optional sign. -/
def leadingDigits : List Char → List Char
  | [] => []
  | c :: cs => if c.isDigit then c :: leadingDigits cs else []

/-- Accumulating decimal value of a digit string, most significant first. -/
def digitsValFrom (a : Nat) : List Char → Nat
  | [] => a
  | c :: cs => digitsValFrom (10 * a + (c.toNat - 48)) cs

/-- Body of parseInt after leading whitespace is skipped: optional sign,
then a nonempty digit run (NaN, modelled as none, when there are no
digits). -/
def parseSigned : List Char → Option Int
  | [] => none
  | c :: rest =>
    if c = '-' then
      if leadingDigits rest = [] then none
      else some (-(digitsValFrom 0 (leadingDigits rest) : Int))
    else if c = '+' then
      if leadingDigits rest = [] then none
      else some ((digitsValFrom 0 (leadingDigits rest) : Int))
    else
      if leadingDigits (c :: rest) = [] then none
      else some ((digitsValFrom 0 (leadingDigits (c :: rest)) : Int))

/-- JS parseInt in radix 10: skip whitespace, optional sign, maximal digit
run; none models NaN. -/
def jsParseInt (s : String) : Option Int :=
  parseSigned (s.data.dropWhile isWsChar)

/-- The decimal digit characters used by JS Number-to-String coercion. -/
def decDigit : Nat → Char
  | 0 => '0'
  | 1 => '1'
  | 2 => '2'
  | 3 => '3'
  | 4 => '4'
  | 5 => '5'
  | 6 => '6'
  | 7 => '7'
  | 8 => '8'
  | _ => '9'

/-- Decimal digit string, most significant first, by recursion on a fuel
bound so that the division chain n, n / 10, n / 100, ... stays
kernel-evaluable; fuel n + 1 always suffices. -/
def natToCharsAux : Nat → Nat → List Char
  | 0, _ => []
  | fuel + 1, n =>
    if n < 10 then [decDigit n]
    else natToCharsAux fuel (n / 10) ++ [decDigit (n % 10)]

/-- Decimal digit string of a natural number, most significant first. -/
def natToChars (n : Nat) : List Char := natToCharsAux (n + 1) n

/-- JS Number-to-String coercion restricted to integral values, as performed
by params.set on the page and pageSize numbers. -/
def intToString (i : Int) : String :=
  if i < 0 then String.mk ('-' :: natToChars (-i).toNat)
  else String.mk (natToChars i.toNat)

/-- The page/filter state of a list view (Habitats.jsx, Species.jsx).
Unset search fields are the empty string, which is exactly what the JS
truthiness tests in updateURL and the decode effect distinguish. -/
structure PageState where
  page : Int
  pageSize : Int
  name : String
  filter : String
deriving DecidableEq

/-- URLSearchParams.get: first value bound to the key, null when absent. -/
def getParam (q : List (String × String)) (k : String) : Option String :=
  match q with
  | [] => none
  | (k2, v) :: rest => if k2 = k then some v else getParam rest k

/-- updateURL from Habitats.jsx: emit filter and name only when truthy
(nonempty), then always page and pageSize, in insertion order. -/
def updateURL (s : PageState) : List (String × String) :=
  (if s.filter ≠ "" then [("filter", s.filter)] else []) ++
  (if s.name ≠ "" then [("name", s.name)] else []) ++
  [("page", intToString s.page), ("pageSize", intToString s.pageSize)]

/-- JS `parseInt(x) || d`: NaN (none) and 0 are falsy and fall back to d. -/
def jsNumOr (v : Option Int) (d : Int) : Int :=
  match v with
  | none => d
  | some n => if n = 0 then d else n

/-- JS `x || d` on an optional string: null and the empty string fall back. -/
def jsStrOr (v : Option String) (d : String) : String :=
  match v with
  | none => d
  | some m => if m = "" then d else m

/-- The decode effect of Habitats.jsx:
  page     = parseInt(params.get('page'))     || 1
  pageSize = parseInt(params.get('pageSize')) || 5
  name     = params.get('name')   || ''
  filter   = params.get('filter') || ''. -/
def decodePageState (q : List (String × String)) : PageState :=
  { page := jsNumOr ((getParam q "page").bind jsParseInt) 1
    pageSize := jsNumOr ((getParam q "pageSize").bind jsParseInt) 5
    name := jsStrOr (getParam q "name") ""
    filter := jsStrOr (getParam q "filter") "" }

/-! Parse/print round-trip for the decimal coercions. -/

theorem decDigit_isDigit (d : Nat) (h : d < 10) : (decDigit d).isDigit = true := by
  interval_cases d <;> decide

theorem decDigit_toNat (d : Nat) (h : d < 10) : (decDigit d).toNat - 48 = d := by
  interval_cases d <;> decide

theorem isDigit_not_ws (c : Char) (h : c.isDigit = true) : isWsChar c = false := by
  simp only [isWsChar, Bool.or_eq_false_iff, decide_eq_false_iff_not]
  refine ⟨⟨⟨⟨⟨?_, ?_⟩, ?_⟩, ?_⟩, ?_⟩, ?_⟩ <;> rintro rfl <;> exact absurd h (by decide)

theorem isDigit_ne_minus (c : Char) (h : c.isDigit = true) : c ≠ '-' := by
  rintro rfl; exact absurd h (by decide)

theorem isDigit_ne_plus (c : Char) (h : c.isDigit = true) : c ≠ '+' := by
  rintro rfl; exact absurd h (by decide)

theorem natToCharsAux_succ (fuel n : Nat) :
    natToCharsAux (fuel + 1) n =
      if n < 10 then [decDigit n]
      else natToCharsAux fuel (n / 10) ++ [decDigit (n % 10)] := rfl

theorem natToChars_ne_nil (n : Nat) : natToChars n ≠ [] := by
  rw [natToChars, natToCharsAux_succ]
  split_ifs <;> simp

theorem natToCharsAux_all_digits (fuel : Nat) :
    ∀ n, ∀ c ∈ natToCharsAux fuel n, c.isDigit = true := by
  induction fuel with
  | zero => intro n c hc; simp [natToCharsAux] at hc
  | succ fuel ih =>
    intro n c hc
    rw [natToCharsAux_succ] at hc
    split_ifs at hc with h
    · rw [List.mem_singleton] at hc
      subst hc
      exact decDigit_isDigit n h
    · rw [List.mem_append] at hc
      rcases hc with hc | hc
      · exact ih (n / 10) c hc
      · rw [List.mem_singleton] at hc
        subst hc
        exact decDigit_isDigit (n % 10) (Nat.mod_lt _ (by omega))

theorem natToChars_all_digits (n : Nat) : ∀ c ∈ natToChars n, c.isDigit = true :=
  natToCharsAux_all_digits (n + 1) n

theorem digitsValFrom_cons (a : Nat) (c : Char) (cs : List Char) :
    digitsValFrom a (c :: cs) = digitsValFrom (10 * a + (c.toNat - 48)) cs := rfl

theorem digitsValFrom_nil (a : Nat) : digitsValFrom a [] = a := rfl

theorem digitsValFrom_append_single (a : Nat) (l : List Char) (c : Char) :
    digitsValFrom a (l ++ [c]) = 10 * digitsValFrom a l + (c.toNat - 48) := by
  induction l generalizing a with
  | nil => rfl
  | cons x xs ih =>
    rw [List.cons_append, digitsValFrom_cons, digitsValFrom_cons]
    exact ih _

theorem digitsValFrom_natToCharsAux (fuel : Nat) :
    ∀ n, n < fuel → digitsValFrom 0 (natToCharsAux fuel n) = n := by
  induction fuel with
  | zero => omega
  | succ fuel ih =>
    intro n hn
    rw [natToCharsAux_succ]
    split_ifs with h
    · rw [digitsValFrom_cons, digitsValFrom_nil, decDigit_toNat n h]
      omega
    · have hdiv : n / 10 < fuel := by
        have := Nat.div_lt_self (n := n) (by omega) (by omega : 1 < 10)
        omega
      rw [digitsValFrom_append_single, ih (n / 10) hdiv,
        decDigit_toNat (n % 10) (Nat.mod_lt _ (by omega))]
      omega

theorem digitsValFrom_natToChars (n : Nat) : digitsValFrom 0 (natToChars n) = n :=
  digitsValFrom_natToCharsAux (n + 1) n (by omega)

theorem leadingDigits_eq_self (l : List Char) (h : ∀ c ∈ l, c.isDigit = true) :
    leadingDigits l = l := by
  induction l with
  | nil => rfl
  | cons c cs ih =>
    simp only [leadingDigits]
    rw [if_pos (h c (List.mem_cons_self ..)), ih (fun x hx => h x (List.mem_cons_of_mem _ hx))]

/-- parseInt inverts the Number-to-String coercion on naturals. -/
theorem jsParseInt_natToChars (n : Nat) :
    parseSigned (natToChars n) = some (n : Int) := by
  obtain ⟨c, t, hct⟩ : ∃ c t, natToChars n = c :: t := by
    cases hn : natToChars n with
    | nil => exact absurd hn (natToChars_ne_nil n)
    | cons c t => exact ⟨c, t, rfl⟩
  have hdig := natToChars_all_digits n
  have hc : c.isDigit = true := hdig c (hct ▸ List.mem_cons_self ..)
  have hld : leadingDigits (c :: t) = c :: t := by
    rw [← hct]
    exact leadingDigits_eq_self _ hdig
  rw [hct]
  simp only [parseSigned]
  rw [if_neg (isDigit_ne_minus c hc), if_neg (isDigit_ne_plus c hc), hld,
    if_neg (by simp), ← hct, digitsValFrom_natToChars]

theorem jsParseInt_intToString (i : Int) (h : 0 ≤ i) :
    jsParseInt (intToString i) = some i := by
  rw [intToString, if_neg (by omega)]
  show parseSigned ((natToChars i.toNat).dropWhile isWsChar) = some i
  have hdw : (natToChars i.toNat).dropWhile isWsChar = natToChars i.toNat := by
    cases hn : natToChars i.toNat with
    | nil => rfl
    | cons c t =>
      rw [List.dropWhile_cons,
        if_neg (by simp [isDigit_not_ws c (natToChars_all_digits i.toNat c
          (hn ▸ List.mem_cons_self ..))])]
  rw [hdw, jsParseInt_natToChars]
  congr 1
  omega

/-- C2: decoding the query produced by updateURL reproduces every valid
PageState exactly — page and pageSize survive the Number-to-String /
parseInt round trip, and name/filter are emitted iff nonempty and default
back to the empty string. -/
theorem url_roundtrip (s : PageState) (hp : 1 ≤ s.page)
    (hsz : s.pageSize = 5 ∨ s.pageSize = 10 ∨ s.pageSize = 20) :
    decodePageState (updateURL s) = s := by
  obtain ⟨page, pageSize, name, filterF⟩ := s
  simp only at hp hsz
  have hps : jsParseInt (intToString page) = some page :=
    jsParseInt_intToString _ (by omega)
  have hss : jsParseInt (intToString pageSize) = some pageSize :=
    jsParseInt_intToString _ (by omega)
  by_cases hf : filterF = "" <;> by_cases hn : name = "" <;>
    simp [updateURL, decodePageState, getParam, hf, hn, hps, hss, jsNumOr, jsStrOr] <;>
    omega

/-- Witness for url_roundtrip at the spec's representative state
page 3, pageSize 10, filter name, value lion. -/
theorem url_roundtrip_witness :
    1 ≤ (PageState.mk 3 10 "lion" "name").page ∧
    ((PageState.mk 3 10 "lion" "name").pageSize = 5 ∨
      (PageState.mk 3 10 "lion" "name").pageSize = 10 ∨
      (PageState.mk 3 10 "lion" "name").pageSize = 20) ∧
    decodePageState (updateURL (PageState.mk 3 10 "lion" "name")) =
      PageState.mk 3 10 "lion" "name" :=
  ⟨by decide, by decide,
    url_roundtrip (PageState.mk 3 10 "lion" "name") (by decide) (by decide)⟩

/-! ## Search validation gate (Habitats.handleSearchSubmit,
Species.handleSearchSubmit) -/

/-- The character class of the allow-list /^[A-Za-z0-9\s\-']+$/
(ASCII letters, digits, whitespace, hyphen, apostrophe — code 39). -/
def isAllowedChar (c : Char) : Bool :=
  c.isAlpha || c.isDigit || isWsChar c || c = '-' || c = Char.ofNat 39

/-- validPattern.test(searchName): the whole (nonempty) string is drawn
from the allow-list class. -/
def validSearch (s : String) : Bool :=
  !s.data.isEmpty && s.data.all isAllowedChar

/-- The observable effect of a search submit: either a navigation carrying
a new query string, or an inline notice with no URL mutation. -/
inductive SearchAction : Type
  | navigate (query : List (String × String)) : SearchAction
  | notice (title text : String) : SearchAction
deriving DecidableEq

/-- handleSearchSubmit from Habitats.jsx: an empty-after-trim term or an
allow-list violation produces only an inline notice; otherwise the URL is
updated with the name/filter state and page reset to 1. -/
def handleSearchSubmit (searchName filterF : String) (pageSize : Int) :
    SearchAction :=
  if jsTrim searchName = "" then
    SearchAction.notice "Error" "Please enter a search term."
  else if !(validSearch searchName) then
    SearchAction.notice "Invalid input"
      "Allowed characters: letters, numbers, spaces, hyphens, apostrophes."
  else
    SearchAction.navigate (updateURL (PageState.mk 1 pageSize searchName filterF))

/-- C5: a search submit navigates iff the trimmed term is nonempty and the
term matches the allow-list; any navigation carries the new name/filter
state with page reset to 1; Savannah-2 passes and Savannah! is rejected
with no navigation. -/
theorem search_submit_gate (searchName filterF : String) (pageSize : Int) :
    ((∃ q, handleSearchSubmit searchName filterF pageSize = SearchAction.navigate q) ↔
      (jsTrim searchName ≠ "" ∧ validSearch searchName = true)) ∧
    (∀ q, handleSearchSubmit searchName filterF pageSize = SearchAction.navigate q →
      q = updateURL (PageState.mk 1 pageSize searchName filterF)) ∧
    handleSearchSubmit "Savannah-2" "name" 5 =
      SearchAction.navigate (updateURL (PageState.mk 1 5 "Savannah-2" "name")) ∧
    handleSearchSubmit "Savannah!" "name" 5 =
      SearchAction.notice "Invalid input"
        "Allowed characters: letters, numbers, spaces, hyphens, apostrophes." := by
  refine ⟨?_, ?_, by decide, by decide⟩ <;>
    · unfold handleSearchSubmit
      split_ifs with h1 h2 <;> simp_all

/-- C9 counterexample: the query page=-3&pageSize=7 decodes to page = -3
and pageSize = 7, violating both claimed invariants page ≥ 1 and
pageSize ∈ (5, 10, 20). -/
theorem decode_invariant_violated :
    (decodePageState [("page", "-3"), ("pageSize", "7")]).page = -3 ∧
    (decodePageState [("page", "-3"), ("pageSize", "7")]).pageSize = 7 ∧
    ¬ (1 ≤ (decodePageState [("page", "-3"), ("pageSize", "7")]).page ∧
       ((decodePageState [("page", "-3"), ("pageSize", "7")]).pageSize = 5 ∨
        (decodePageState [("page", "-3"), ("pageSize", "7")]).pageSize = 10 ∨
        (decodePageState [("page", "-3"), ("pageSize", "7")]).pageSize = 20)) := by
  decide

/-- C9 (amended: a numeric page parameter may be negative and a numeric
pageSize parameter outside 5/10/20 is taken as-is, so the invariants are
claimed only when the parsed page is nonnegative and the parsed pageSize,
when nonzero, is one of 5, 10, 20): the decoded state then satisfies
page ≥ 1 and pageSize ∈ (5, 10, 20), and absent or non-numeric keys fall
back to page = 1 and pageSize = 5. -/
theorem decode_wellformed (q : List (String × String))
    (hp : ∀ n, (getParam q "page").bind jsParseInt = some n → 0 ≤ n)
    (hs : ∀ n, (getParam q "pageSize").bind jsParseInt = some n →
      n = 0 ∨ n = 5 ∨ n = 10 ∨ n = 20) :
    1 ≤ (decodePageState q).page ∧
    ((decodePageState q).pageSize = 5 ∨ (decodePageState q).pageSize = 10 ∨
      (decodePageState q).pageSize = 20) ∧
    ((getParam q "page").bind jsParseInt = none → (decodePageState q).page = 1) ∧
    ((getParam q "pageSize").bind jsParseInt = none →
      (decodePageState q).pageSize = 5) := by
  simp only [decodePageState]
  refine ⟨?_, ?_, ?_, ?_⟩
  · cases hpp : (getParam q "page").bind jsParseInt with
    | none => simp [jsNumOr]
    | some n =>
      have := hp n hpp
      simp only [jsNumOr]
      split_ifs <;> omega
  · cases hpp : (getParam q "pageSize").bind jsParseInt with
    | none => simp [jsNumOr]
    | some n =>
      have := hs n hpp
      simp only [jsNumOr]
      split_ifs <;> omega
  · intro h
    simp [jsNumOr, h]
  · intro h
    simp [jsNumOr, h]

/-- Witness for decode_wellformed on the query page=abc, whose page key is
non-numeric and whose pageSize key is absent. -/
theorem decode_wellformed_witness :
    1 ≤ (decodePageState [("page", "abc")]).page ∧
    ((decodePageState [("page", "abc")]).pageSize = 5 ∨
      (decodePageState [("page", "abc")]).pageSize = 10 ∨
      (decodePageState [("page", "abc")]).pageSize = 20) ∧
    ((getParam [("page", "abc")] "page").bind jsParseInt = none →
      (decodePageState [("page", "abc")]).page = 1) ∧
    ((getParam [("page", "abc")] "pageSize").bind jsParseInt = none →
      (decodePageState [("page", "abc")]).pageSize = 5) :=
  decode_wellformed [("page", "abc")]
    (fun n h => by
      rw [show (getParam [("page", "abc")] "page").bind jsParseInt = none from by
        decide] at h
      cases h)
    (fun n h => by
      rw [show (getParam [("page", "abc")] "pageSize").bind jsParseInt = none from by
        decide] at h
      cases h)

/-! ## Paged drain loop (DeleteResource.fetchIds,
CreateResource.fetchAllIds)

Both components run the same do-while: request page p (at pageSize 20),
project ids out of res.data, append them to the accumulator, read
totalPages = res.metadata?.total_pages || 1, increment the page, and
continue while page ≤ totalPages.  The claim's setting is a server whose
total_pages metadata is the constant totalN.  The recursion is structured
on a fuel bound (the constant page total) so it stays kernel-evaluable;
the fuel chosen in fetchIds is always sufficient. -/
def drainFromAux {α β : Type} (data : Nat → List α) (pick : α → β) (totalN : Nat) :
    Nat → Nat → List Nat × List β
  | 0, p => ([p], (data p).map pick)
  | fuel + 1, p =>
    let ids := (data p).map pick
    let totalPages := if totalN = 0 then 1 else totalN
    if p + 1 ≤ totalPages then
      let rest := drainFromAux data pick totalN fuel (p + 1)
      (p :: rest.1, ids ++ rest.2)
    else ([p], ids)

/-- The full drain starting at page 1: the list of pages requested, in
order, and the accumulated projected ids. -/
def fetchIds {α β : Type} (data : Nat → List α) (pick : α → β) (totalN : Nat) :
    List Nat × List β :=
  drainFromAux data pick totalN (if totalN = 0 then 1 else totalN) 1

theorem drainFromAux_spec {α β : Type} (data : Nat → List α) (pick : α → β)
    (totalN : Nat) (hN : 1 ≤ totalN) :
    ∀ fuel p, 1 ≤ p → p ≤ totalN → totalN - p ≤ fuel →
      drainFromAux data pick totalN fuel p =
        (List.range' p (totalN + 1 - p),
          (List.range' p (totalN + 1 - p)).flatMap (fun q => (data q).map pick)) := by
  intro fuel
  induction fuel with
  | zero =>
    intro p h1 h2 h3
    simp only [drainFromAux]
    rw [show totalN + 1 - p = 1 from by omega]
    simp [List.range']
  | succ fuel ih =>
    intro p h1 h2 h3
    simp only [drainFromAux, if_neg (by omega : ¬ totalN = 0)]
    split_ifs with h
    · rw [ih (p + 1) (by omega) (by omega) (by omega)]
      rw [show totalN + 1 - p = (totalN - p) + 1 from by omega, List.range'_succ]
      rw [show totalN + 1 - (p + 1) = totalN - p from by omega]
      simp
    · rw [show totalN + 1 - p = 1 from by omega]
      simp [List.range']

/-- C6: with a constant page count totalN ≥ 1, the drain loop requests
exactly the pages 1..totalN in ascending order — totalN requests in all —
and accumulates the concatenation of the projected ids of pages 1..totalN,
in page order. -/
theorem fetchIds_exhaustive {α β : Type} (data : Nat → List α) (pick : α → β)
    (totalN : Nat) (hN : 1 ≤ totalN) :
    (fetchIds data pick totalN).1 = List.range' 1 totalN ∧
    (fetchIds data pick totalN).1.length = totalN ∧
    (fetchIds data pick totalN).2 =
      (List.range' 1 totalN).flatMap (fun q => (data q).map pick) := by
  have hfuel : (if totalN = 0 then 1 else totalN) = totalN := by
    rw [if_neg (by omega)]
  have h := drainFromAux_spec data pick totalN hN totalN 1 (by omega) hN (by omega)
  rw [fetchIds, hfuel, h, show totalN + 1 - 1 = totalN from by omega]
  exact ⟨rfl, by simp, rfl⟩

/-- Witness for fetchIds_exhaustive: a related collection spanning 3 server
pages whose items carry their ids directly. -/
theorem fetchIds_exhaustive_witness :
    (fetchIds (fun p => [10 * p, 10 * p + 1]) (fun x => x) 3).1 = List.range' 1 3 ∧
    (fetchIds (fun p => [10 * p, 10 * p + 1]) (fun x => x) 3).1.length = 3 ∧
    (fetchIds (fun p => [10 * p, 10 * p + 1]) (fun x => x) 3).2 =
      (List.range' 1 3).flatMap (fun q => ([10 * q, 10 * q + 1]).map (fun x => x)) :=
  fetchIds_exhaustive (fun p => [10 * p, 10 * p + 1]) (fun x => x) 3 (by decide)

/-! ## Duplicate-key error mapping (CreateResource.handleSubmit) -/

/-- The details payload a failed create carries (err.details): an optional
numeric error code and an optional offending id. -/
structure ErrDetails where
  code : Option Int
  id : Option String
deriving DecidableEq

/-- The error caught by handleSubmit: optional message, optional details
(err?.message and err?.details are undefined-safe accesses). -/
structure RequestError where
  message : Option String
  details : Option ErrDetails
deriving DecidableEq

/-- The user-facing notice handleSubmit raises on failure. -/
inductive CreateNotice : Type
  | duplicate (title text : String) : CreateNotice
  | generic (title text : String) : CreateNotice
deriving DecidableEq

/-- JS template interpolation of a possibly-undefined value. -/
def jsShow (o : Option String) : String := o.getD "undefined"

/-- The catch branch of CreateResource.handleSubmit: code === 23000 surfaces
the targeted duplicate message naming err.details.id; anything else surfaces
the generic message err?.message || a fallback. -/
def createErrorNotice (err : RequestError) : CreateNotice :=
  let code := err.details.bind ErrDetails.code
  let duplicateId := err.details.bind ErrDetails.id
  if code = some 23000 then
    CreateNotice.duplicate "Duplicate ID"
      ("A record with ID \"" ++ jsShow duplicateId ++ "\" already exists.")
  else
    CreateNotice.generic "Error" (jsStrOr err.message "Something went wrong.")

/-- C7: the duplicate notice is produced iff the error's details carry code
23000; the duplicate message names the server-supplied id (HA-001 in the
spec's scenario); every other failure goes down the generic path, and the
two paths are distinct notices. -/
theorem duplicate_key_mapping (err : RequestError) :
    ((∃ t m, createErrorNotice err = CreateNotice.duplicate t m) ↔
      err.details.bind ErrDetails.code = some 23000) ∧
    (err.details.bind ErrDetails.code ≠ some 23000 →
      createErrorNotice err =
        CreateNotice.generic "Error" (jsStrOr err.message "Something went wrong.")) ∧
    createErrorNotice
        (RequestError.mk none (some (ErrDetails.mk (some 23000) (some "HA-001")))) =
      CreateNotice.duplicate "Duplicate ID"
        "A record with ID \"HA-001\" already exists." ∧
    (∀ t1 m1 t2 m2, CreateNotice.duplicate t1 m1 ≠ CreateNotice.generic t2 m2) := by
  refine ⟨?_, ?_, by decide, by intro t1 m1 t2 m2 h; cases h⟩ <;>
    · simp only [createErrorNotice]
      split_ifs with h <;> simp_all

/-- Witness for duplicate_key_mapping on an error with code 400: only the
generic path fires. -/
theorem duplicate_key_mapping_witness :
    createErrorNotice
        (RequestError.mk (some "boom") (some (ErrDetails.mk (some 400) none))) =
      CreateNotice.generic "Error"
        (jsStrOr (RequestError.mk (some "boom")
          (some (ErrDetails.mk (some 400) none))).message "Something went wrong.") :=
  (duplicate_key_mapping
    (RequestError.mk (some "boom") (some (ErrDetails.mk (some 400) none)))).2.1
    (by decide)

/-! ## HTTP error normalization (FetchWrapper.sendRequest, CustomError)

sendRequest awaits fetch, parses the body as JSON when the Content-Type
says so and as text otherwise, returns the parsed body when response.ok,
and otherwise throws
  CustomError(responseData?.message || response.statusText || 'Unknown
  error', response.status, responseData).
The outer catch rethrows a CustomError unchanged (the instanceof test) and
wraps any other thrown error — a fetch network failure or a body-parse
throw — as CustomError(error.message || 'Network Error', 0, an empty
details object).  The function makes exactly one fetch attempt: its model
is a function of a single fetch outcome. -/

/-- The parsed response body: a JSON object (only its message field, the
part sendRequest inspects, is kept structured) or plain text, whose
.message access is undefined. -/
inductive BodyData : Type
  | json (message : Option String) (rest : String) : BodyData
  | text (s : String) : BodyData
deriving DecidableEq

/-- The .message access on the parsed body (undefined on a text body). -/
def bodyMessage : BodyData → Option String
  | BodyData.json m _ => m
  | BodyData.text _ => none

/-- The fields of the fetch Response that sendRequest reads, with the body
already parsed. -/
structure HttpResponse where
  ok : Bool
  status : Nat
  statusText : String
  body : BodyData
deriving DecidableEq

/-- Outcome of the awaited fetch plus body parse: a response, or a thrown
JS error (network failure from fetch itself, or a body-parse throw)
carrying its message. -/
inductive FetchOutcome : Type
  | resp (r : HttpResponse) : FetchOutcome
  | thrown (message : String) : FetchOutcome
deriving DecidableEq

/-- The details field of a CustomError: the server payload on the HTTP
path, the empty object on the wrap path. -/
inductive ErrorDetails : Type
  | payload (d : BodyData) : ErrorDetails
  | emptyObj : ErrorDetails
deriving DecidableEq

/-- CustomError from fetchWrapper.js: message, HTTP status, details. -/
structure CustomError where
  message : String
  statusCode : Nat
  details : ErrorDetails
deriving DecidableEq

/-- What sendRequest does: return the parsed body, or throw a CustomError. -/
inductive SendResult : Type
  | success (d : BodyData) : SendResult
  | failure (e : CustomError) : SendResult
deriving DecidableEq

/-- FetchWrapper.sendRequest on one fetch outcome.  On a response: return
the body when ok, else throw CustomError(message chain, status, body); the
outer catch passes that CustomError through unchanged.  On any other
throw: wrap as CustomError(error.message || 'Network Error', 0, empty). -/
def sendRequest (outcome : FetchOutcome) : SendResult :=
  match outcome with
  | FetchOutcome.resp r =>
    if r.ok then SendResult.success r.body
    else
      SendResult.failure
        (CustomError.mk
          (jsStrOr (bodyMessage r.body)
            (if r.statusText = "" then "Unknown error" else r.statusText))
          r.status (ErrorDetails.payload r.body))
  | FetchOutcome.thrown msg =>
    SendResult.failure
      (CustomError.mk (if msg = "" then "Network Error" else msg) 0
        ErrorDetails.emptyObj)

/-- C8: sendRequest returns the parsed body exactly when the response is
successful; a non-success response never returns normally but produces a
single structured CustomError whose statusCode is the HTTP status and
whose details are the server payload. -/
theorem sendRequest_normalizes (r : HttpResponse) :
    (r.ok = true → sendRequest (FetchOutcome.resp r) = SendResult.success r.body) ∧
    (r.ok = false →
      sendRequest (FetchOutcome.resp r) =
        SendResult.failure
          (CustomError.mk
            (jsStrOr (bodyMessage r.body)
              (if r.statusText = "" then "Unknown error" else r.statusText))
            r.status (ErrorDetails.payload r.body))) ∧
    (r.ok = false → ∀ d, sendRequest (FetchOutcome.resp r) ≠ SendResult.success d) := by
  refine ⟨?_, ?_, ?_⟩ <;> intro h <;> simp [sendRequest, h]

/-- Witness for sendRequest_normalizes: a successful 200 text response is
returned as-is. -/
theorem sendRequest_normalizes_witness :
    sendRequest (FetchOutcome.resp
        (HttpResponse.mk true 200 "OK" (BodyData.text "pong"))) =
      SendResult.success (BodyData.text "pong") :=
  (sendRequest_normalizes (HttpResponse.mk true 200 "OK" (BodyData.text "pong"))).1 rfl

/-- C10: any non-CustomError throw is wrapped as a CustomError with
statusCode 0 and empty details, so — given that genuine HTTP responses
carry a positive status — a caller can tell transport failures
(statusCode 0) from HTTP failures (statusCode > 0) by the statusCode
alone. -/
theorem sendRequest_wraps_transport (outcome : FetchOutcome)
    (hpos : ∀ r, outcome = FetchOutcome.resp r → 0 < r.status) :
    (∀ msg, outcome = FetchOutcome.thrown msg →
      sendRequest outcome =
        SendResult.failure
          (CustomError.mk (if msg = "" then "Network Error" else msg) 0
            ErrorDetails.emptyObj)) ∧
    (∀ e, sendRequest outcome = SendResult.failure e →
      (e.statusCode = 0 ↔ ∃ msg, outcome = FetchOutcome.thrown msg)) := by
  constructor
  · rintro msg rfl
    rfl
  · intro e he
    cases outcome with
    | resp r =>
      have hr := hpos r rfl
      by_cases hok : r.ok = true
      · simp only [sendRequest, if_pos hok] at he
        cases he
      · have hsc : e.statusCode = r.status := by
          simp only [sendRequest, if_neg hok] at he
          cases he
          rfl
        rw [hsc]
        constructor
        · intro h0
          omega
        · rintro ⟨msg, h⟩
          cases h
    | thrown msg =>
      simp only [sendRequest] at he
      cases he
      simp

/-- Witness for sendRequest_wraps_transport on a thrown network error. -/
theorem sendRequest_wraps_transport_witness :
    (∀ msg, FetchOutcome.thrown "Failed to fetch" = FetchOutcome.thrown msg →
      sendRequest (FetchOutcome.thrown "Failed to fetch") =
        SendResult.failure
          (CustomError.mk (if msg = "" then "Network Error" else msg) 0
            ErrorDetails.emptyObj)) ∧
    (∀ e, sendRequest (FetchOutcome.thrown "Failed to fetch") = SendResult.failure e →
      (e.statusCode = 0 ↔
        ∃ msg, FetchOutcome.thrown "Failed to fetch" = FetchOutcome.thrown msg)) :=
  sendRequest_wraps_transport (FetchOutcome.thrown "Failed to fetch")
    (fun r h => by cases h)

end Zoologix
